import Mathlib

/-!
Shallow embedding of the Writer's Assistant backend (`src/app.py`).

The document store is modelled as an association list from filenames to
parsed documents (one JSON file per document in the data directory),
together with the in-memory `documents` mapping.  Strings are Lean
`String`s (sequences of Unicode code points, matching Python `str`);
all endpoint handlers become pure functions from request data (and the
ambient clock, passed explicitly) to a response structure and the new
server state.
-/

namespace Rubricy

/-- A persisted document, the shape written by `save_document` as JSON. -/
structure Document where
  id : String
  title : String
  content : String
  created_at : String
  updated_at : String
deriving DecidableEq, Repr

/-- The metadata projection used by `list_documents` (content omitted). -/
structure DocMeta where
  id : String
  title : String
  created_at : String
  updated_at : String
deriving DecidableEq, Repr

/-- Server state: the in-memory `documents` dict and the data directory,
a finite map from filename to the (parsed) document stored in that file. -/
structure ServerState where
  documents : List (String × Document)
  dataDir : List (String × Document)
deriving Repr

/-- Association-list lookup: `os.path.exists` + read of the named file. -/
def lookupFile : List (String × Document) → String → Option Document
  | [], _ => none
  | (k, v) :: rest, name => if k = name then some v else lookupFile rest name

/-- Write a file (or dict entry): overwrite in place if the key exists,
otherwise append. -/
def setKey : List (String × Document) → String → Document → List (String × Document)
  | [], name, doc => [(name, doc)]
  | (k, v) :: rest, name, doc =>
    if k = name then (name, doc) :: rest else (k, v) :: setKey rest name doc

/-- Python startswith-style matching: does `needle` occur at the
head of `hay`?  (Both Python and Lean compare code points.) -/
def leadMatch : List Char → List Char → Bool
  | [], _ => true
  | _ :: _, [] => false
  | a :: as, b :: bs => a == b && leadMatch as bs

/-- Python `needle in hay` for strings: contiguous-substring test. -/
def hasSub (needle : List Char) : List Char → Bool
  | [] => needle.isEmpty
  | hay@(_ :: t) => leadMatch needle hay || hasSub needle t

/-- Index of the first occurrence of `needle` in `hay`, if any. -/
def findSubPos (needle : List Char) : List Char → Option Nat
  | [] => if needle.isEmpty then some 0 else none
  | hay@(_ :: t) =>
    if leadMatch needle hay then some 0
    else (findSubPos needle t).map (· + 1)

/-- Python `hay.find(needle)`: first index, or `-1` when absent. -/
def pyFind (needle hay : List Char) : Int :=
  match findSubPos needle hay with
  | some n => (n : Int)
  | none => -1

/-- Python `s.endswith(t)`. -/
def strEndsWith (s t : String) : Bool :=
  leadMatch t.data.reverse s.data.reverse

/-- Python string `<`: lexicographic comparison of code-point sequences
(a proper non-empty extension of a string is greater than it). -/
def lexLt : List Char → List Char → Bool
  | [], [] => false
  | [], _ :: _ => true
  | _ :: _, [] => false
  | a :: as, b :: bs =>
    if a < b then true else if b < a then false else lexLt as bs

/-! ### Save / Load endpoints (`save_document` lines 151-190,
`load_document` lines 192-218) -/

/-- Request body of `/api/save-document`; `none` means the field is
absent from the JSON body (so `data.get` falls back to its default). -/
structure SaveRequest where
  id : Option String
  content : Option String
  title : Option String
deriving Repr

/-- A wall-clock reading, the fields `strftime` formats. -/
structure Timestamp where
  year : Nat
  month : Nat
  day : Nat
  hour : Nat
  minute : Nat
  second : Nat
deriving Repr

/-- Exactly `w` decimal digits, zero padded: the field formatting of
`strftime` directives `%Y` (w = 4) and `%m %d %H %M %S` (w = 2). -/
def padNum (w n : Nat) : List Char :=
  (List.range w).reverse.map (fun i => Nat.digitChar (n / 10 ^ i % 10))

/-- The generated document id: `datetime.now().strftime('%Y%m%d%H%M%S')`. -/
def formatTimestamp (t : Timestamp) : String :=
  ⟨padNum 4 t.year ++ padNum 2 t.month ++ padNum 2 t.day
    ++ padNum 2 t.hour ++ padNum 2 t.minute ++ padNum 2 t.second⟩

/-- Response shape of `/api/save-document` (always succeeds). -/
structure SaveResponse where
  success : Bool
  document : Document
deriving Repr

/-- The handler `save_document` from app.py.  The three `datetime.now()` calls are
passed explicitly: `nowId` feeds the generated id, `iso1`/`iso2` are the
`isoformat()` strings stored as `created_at`/`updated_at`. -/
def save_document (st : ServerState) (req : SaveRequest)
    (nowId : Timestamp) (iso1 iso2 : String) : SaveResponse × ServerState :=
  let doc_id := req.id.getD (formatTimestamp nowId)
  let content := req.content.getD ""
  let title := req.title.getD "Untitled Document"
  let document : Document :=
    { id := doc_id, title := title, content := content,
      created_at := iso1, updated_at := iso2 }
  ({ success := true, document := document },
   { documents := setKey st.documents doc_id document,
     dataDir := setKey st.dataDir (doc_id ++ ".json") document })

/-- Response shape of `/api/load-document/<doc_id>`. -/
structure LoadResponse where
  success : Bool
  document : Option Document
  error : Option String
  status : Nat
deriving DecidableEq, Repr

/-- The handler `load_document` from app.py: reads `<data_dir>/<doc_id>.json` from
disk (never the in-memory dict); 404 when the file is absent.  The state
is returned to make "changes no stored state" expressible. -/
def load_document (st : ServerState) (doc_id : String) :
    LoadResponse × ServerState :=
  match lookupFile st.dataDir (doc_id ++ ".json") with
  | some document =>
    ({ success := true, document := some document, error := none,
       status := 200 }, st)
  | none =>
    ({ success := false, document := none,
       error := some "Document not found", status := 404 }, st)

/-! ### List endpoint (`list_documents`, app.py lines 220-250) -/

/-- The metadata projection appended to `doc_list` for each file. -/
def metaOf (d : Document) : DocMeta :=
  { id := d.id, title := d.title, created_at := d.created_at,
    updated_at := d.updated_at }

/-- One insertion step of a stable descending sort on the `updated_at`
key: the incoming element goes after every earlier element with a key
`≥` its own (keys compare as strings, i.e. lexicographically). -/
def insertByUpdated (x : DocMeta) : List DocMeta → List DocMeta
  | [] => [x]
  | y :: ys =>
    if lexLt x.updated_at.data y.updated_at.data then y :: insertByUpdated x ys
    else x :: y :: ys

/-- Python's `doc_list.sort(key=lambda x: x.get('updated_at', ''),
reverse=True)`: a stable sort, descending on the `updated_at` string.
Stable descending insertion sort computes the same list (stably sorted
output is unique), so it is the embedding of the library call. -/
def sortByUpdatedDesc : List DocMeta → List DocMeta
  | [] => []
  | x :: xs => insertByUpdated x (sortByUpdatedDesc xs)

/-- Response shape of `/api/list-documents`. -/
structure ListResponse where
  success : Bool
  documents : List DocMeta
deriving DecidableEq, Repr

/-- The handler `list_documents` from app.py: scan the data directory in its listing
order, keep names ending in `.json`, project metadata, sort by
`updated_at` descending. -/
def list_documents (st : ServerState) : ListResponse :=
  let doc_list :=
    (st.dataDir.filter (fun f => strEndsWith f.1 ".json")).map
      (fun f => metaOf f.2)
  { success := true, documents := sortByUpdatedDesc doc_list }

/-! ### Export endpoint (`export_document`, app.py lines 252-296) -/

/-- Response shape of `/api/export-document`. -/
structure ExportResponse where
  success : Bool
  format : Option String
  content : Option String
  error : Option String
  status : Nat
deriving DecidableEq, Repr

/-- The handler `export_document` from app.py: the request's `content` and `format`
fields (the route defaults `format` to `"txt"` when absent; callers pass
the field's value here). -/
def export_document (content format_type : String) : ExportResponse :=
  if format_type = "txt" then
    { success := true, format := some "txt", content := some content,
      error := none, status := 200 }
  else if format_type = "html" then
    { success := true, format := some "html",
      content := some ("<html><head><title>Exported Document</title></head><body><pre>"
        ++ content ++ "</pre></body></html>"),
      error := none, status := 200 }
  else if format_type = "markdown" then
    { success := true, format := some "markdown", content := some content,
      error := none, status := 200 }
  else
    { success := false, format := none, content := none,
      error := some "Unsupported format", status := 400 }

/-! ### Chat (`generate_chat_response`, app.py lines 302-330) -/

/-- Python `message.lower()`, applied code point by code point (the
keywords below are ASCII, where `Char.toLower` agrees with `str.lower`). -/
def toLowerStr (s : String) : String := ⟨s.data.map Char.toLower⟩

/-- Response for the `grammar`/`spell` keyword group. -/
def grammarResponse : String :=
  "I can help you check grammar and spelling! Try using the 'Check Grammar' button or paste your text here."

/-- Response for the `style`/`improve` keyword group. -/
def styleResponse : String :=
  "I can help improve your writing style! Use the 'Improve Style' button for suggestions."

/-- Response for the `idea`/`suggest` keyword group. -/
def ideaResponse : String :=
  "I can help generate writing ideas! Use the 'Generate Ideas' button or tell me what you're writing about."

/-- Response for the `hello`/`hi` keyword group. -/
def helloResponse : String :=
  "Hello! I'm Rubricy, your writing assistant. How can I help you with your writing today?"

/-- Response for the `help` keyword. -/
def helpResponse : String :=
  "I can help you with:\n• Grammar and spelling checks\n• Writing style improvements\n• Generating ideas\n• Organizing your thoughts\n\nWhat would you like help with?"

/-- The fallback echo template, repeating the message verbatim. -/
def echoTemplate (message : String) : String :=
  "I understand you're asking about '" ++ message
    ++ "'. I'm here to help with your writing! Try asking about grammar, style, or ideas for your piece."

/-- The helper `generate_chat_response` from app.py: lowercase the message, then an
ordered chain of substring tests; `context` is accepted but unused. -/
def generate_chat_response (message context : String) : String :=
  let message_lower := toLowerStr message
  if hasSub "grammar".data message_lower.data
      || hasSub "spell".data message_lower.data then
    grammarResponse
  else if hasSub "style".data message_lower.data
      || hasSub "improve".data message_lower.data then
    styleResponse
  else if hasSub "idea".data message_lower.data
      || hasSub "suggest".data message_lower.data then
    ideaResponse
  else if hasSub "hello".data message_lower.data
      || hasSub "hi".data message_lower.data then
    helloResponse
  else if hasSub "help".data message_lower.data then
    helpResponse
  else
    echoTemplate message

/-- The ordered keyword rule table named by the spec. -/
def chatRules : List (List String × String) :=
  [(["grammar", "spell"], grammarResponse),
   (["style", "improve"], styleResponse),
   (["idea", "suggest"], ideaResponse),
   (["hello", "hi"], helloResponse),
   (["help"], helpResponse)]

/-- First rule of the table whose group has a member occurring in the
lowercased message, in table order. -/
def firstRuleMatch (ml : String) : List (List String × String) → Option String
  | [] => none
  | r :: rs =>
    if r.1.any (fun kw => hasSub kw.data ml.data) then some r.2
    else firstRuleMatch ml rs

/-- Modelled from the spec's words (refinement reference for C5):
case-insensitive substring match against the ordered keyword groups,
first match wins, otherwise the echo template. -/
def chatReplySpec (message : String) : String :=
  (firstRuleMatch (toLowerStr message) chatRules).getD (echoTemplate message)

/-! ### Grammar check (`check_grammar_issues` lines 332-359,
`generate_grammar_suggestions` lines 361-375) -/

/-- An entry of the `issues` list: `{type, message, position}`.  The
position is a Python `int` (`str.find` result), hence `Int`. -/
structure GrammarIssue where
  type : String
  message : String
  position : Int
deriving DecidableEq, Repr

/-- The helper `check_grammar_issues` from app.py: on non-empty text containing two
consecutive spaces, one formatting issue at `text.find('  ')`. -/
def check_grammar_issues (text : String) : List GrammarIssue :=
  if 0 < text.data.length then
    if hasSub "  ".data text.data then
      [{ type := "formatting", message := "Double spaces detected",
         position := pyFind "  ".data text.data }]
    else []
  else []

/-- The helper `generate_grammar_suggestions` from app.py: one fixed suggestion per
issue of type `"formatting"`. -/
def generate_grammar_suggestions (issues : List GrammarIssue) : List String :=
  (issues.filter (fun i => i.type == "formatting")).map
    (fun _ => "Remove extra spaces for better formatting.")

/-! ### Style (`generate_style_suggestions` lines 377-401,
`apply_style_improvements` lines 403-418) -/

/-- Python `text.split('.')`: split at every `'.'`. -/
def splitDot : List Char → List (List Char)
  | [] => [[]]
  | c :: t =>
    if c == '.' then [] :: splitDot t
    else
      match splitDot t with
      | [] => [[c]]
      | p :: ps => (c :: p) :: ps

/-- Python `text.split('\n\n')`: split at every non-overlapping
occurrence of a blank-line boundary, scanning left to right. -/
def splitPara : List Char → List (List Char)
  | [] => [[]]
  | [c] => [[c]]
  | c :: d :: t =>
    if c == '\n' && d == '\n' then [] :: splitPara t
    else
      match splitPara (d :: t) with
      | [] => [[c]]
      | p :: ps => (c :: p) :: ps

/-- The long-sentence suggestion string. -/
def longSentenceMsg : String :=
  "Consider breaking up long sentences for better readability."

/-- The long-paragraph suggestion string. -/
def longParaMsg : String :=
  "Consider splitting long paragraphs into shorter ones."

/-- The helper `generate_style_suggestions` from app.py: long-sentence check over
every `'.'`-segment, long-paragraph check over `paragraphs[0]` only. -/
def generate_style_suggestions (text : String) : List String :=
  if 0 < text.data.length then
    (if ((splitDot text.data).filter (fun s => 100 < s.length)).isEmpty
     then [] else [longSentenceMsg]) ++
    (if 0 < (splitPara text.data).length
        ∧ 500 < ((splitPara text.data).headD []).length
     then [longParaMsg] else [])
  else []

/-- The helper `apply_style_improvements` from app.py: a placeholder returning the
original text unchanged. -/
def apply_style_improvements (text : String) (suggestions : List String) :
    String := text

/-! ### Ideas (`generate_writing_ideas`, app.py lines 420-445) -/

/-- The four generic prompts returned when no topic is given. -/
def genericIdeas : List String :=
  ["Write about a personal experience that changed your perspective",
   "Describe a place that holds special meaning to you",
   "Create a dialogue between two contrasting characters",
   "Write about a moment of realization or discovery"]

/-- The helper `generate_writing_ideas` from app.py: `if topic:` is Python string
truthiness, i.e. non-emptiness; `context` is accepted but unused. -/
def generate_writing_ideas (context topic : String) : List String :=
  if topic ≠ "" then
    ["Explore different perspectives on '" ++ topic ++ "'",
     "Write a story about '" ++ topic ++ "' from a unique angle",
     "Create a detailed description of '" ++ topic ++ "'"]
  else
    genericIdeas

/-! ### Decimal decoding, for the C9 id-pattern statement -/

/-- Reads a digit string back as a number (digits are ASCII, `'0'` = 48). -/
def readNum (l : List Char) : Nat :=
  l.foldl (fun a c => a * 10 + (c.toNat - 48)) 0

end Rubricy

namespace Rubricy

/-- C4 helper: the supported formats. -/
def supportedFormats : List String := ["txt", "html", "markdown"]

end Rubricy

open Rubricy

namespace Rubricy

/-- Writing a file and reading the same name back yields the new content. -/
theorem lookupFile_setKey (fs : List (String × Document)) (name : String)
    (doc : Document) : lookupFile (setKey fs name doc) name = some doc := by
  induction fs with
  | nil => simp [setKey, lookupFile]
  | cons p rest ih =>
    by_cases h : p.1 = name
    · simp [setKey, h, lookupFile]
    · simp [setKey, h, lookupFile, ih]

/-- Irreflexivity of `lexLt`. -/
theorem lexLt_irrefl (l : List Char) : lexLt l l = false := by
  induction l with
  | nil => rfl
  | cons a as ih => simp [lexLt, lt_irrefl, ih]

/-- Asymmetry of `lexLt`. -/
theorem lexLt_asymm {x y : List Char} (h : lexLt x y = true) :
    lexLt y x = false := by
  induction x generalizing y with
  | nil =>
    cases y with
    | nil => exact absurd h (by simp [lexLt])
    | cons b bs => rfl
  | cons a as ih =>
    cases y with
    | nil => exact absurd h (by simp [lexLt])
    | cons b bs =>
      by_cases hab : a < b
      · rw [lexLt]
        simp [hab, lt_asymm hab]
      · by_cases hba : b < a
        · rw [lexLt] at h
          simp [hab, hba] at h
        · rw [lexLt] at h
          simp only [hab, hba, if_false] at h
          rw [lexLt]
          simp only [hab, hba, if_false]
          exact ih h

/-- The complement of `lexLt` (string "greater or equal") is transitive. -/
theorem lexLt_ge_trans {x y z : List Char} (h1 : lexLt x y = false)
    (h2 : lexLt y z = false) : lexLt x z = false := by
  induction x generalizing y z with
  | nil =>
    cases y with
    | nil => exact h2
    | cons b bs => simp [lexLt] at h1
  | cons a as ih =>
    cases y with
    | nil =>
      cases z with
      | nil => rfl
      | cons c cs => simp [lexLt] at h2
    | cons b bs =>
      cases z with
      | nil => rfl
      | cons c cs =>
        by_cases hab : a < b
        · rw [lexLt] at h1
          simp [hab] at h1
        · by_cases hbc : b < c
          · rw [lexLt] at h2
            simp [hbc] at h2
          · have hca : c ≤ a := (not_lt.mp hbc).trans (not_lt.mp hab)
            by_cases hac : a < c
            · exact absurd (lt_of_lt_of_le hac hca) (lt_irrefl a)
            · by_cases hca' : c < a
              · rw [lexLt]
                simp [hac, hca']
              · have hab' : a = b :=
                  le_antisymm ((not_lt.mp hca').trans (not_lt.mp hbc))
                    (not_lt.mp hab)
                have hbc' : b = c :=
                  le_antisymm ((not_lt.mp hab).trans (not_lt.mp hca'))
                    (not_lt.mp hbc)
                subst hab'
                subst hbc'
                rw [lexLt] at h1 h2 ⊢
                simp only [lt_irrefl, if_false] at h1 h2 ⊢
                exact ih h1 h2

/-- Inserting is a permutation step. -/
theorem insertByUpdated_perm (x : DocMeta) (l : List DocMeta) :
    (insertByUpdated x l).Perm (x :: l) := by
  induction l with
  | nil => exact List.Perm.refl _
  | cons y ys ih =>
    unfold insertByUpdated
    by_cases h : lexLt x.updated_at.data y.updated_at.data = true
    · simp only [h, if_true]
      exact (ih.cons y).trans (List.Perm.swap x y ys)
    · simp only [h, if_false]
      exact List.Perm.refl _

/-- The sort permutes its input. -/
theorem sortByUpdatedDesc_perm (l : List DocMeta) :
    (sortByUpdatedDesc l).Perm l := by
  induction l with
  | nil => exact List.Perm.refl _
  | cons x xs ih =>
    exact (insertByUpdated_perm x (sortByUpdatedDesc xs)).trans (ih.cons x)

/-- Inserting preserves descending sortedness of the `updated_at` keys. -/
theorem insertByUpdated_pairwise (x : DocMeta) (l : List DocMeta)
    (h : l.Pairwise (fun a b => lexLt a.updated_at.data b.updated_at.data = false)) :
    (insertByUpdated x l).Pairwise
      (fun a b => lexLt a.updated_at.data b.updated_at.data = false) := by
  induction l with
  | nil => simp [insertByUpdated]
  | cons y ys ih =>
    rcases List.pairwise_cons.mp h with ⟨hy, hys⟩
    unfold insertByUpdated
    by_cases hlt : lexLt x.updated_at.data y.updated_at.data = true
    · simp only [hlt, if_true]
      refine List.pairwise_cons.mpr ⟨fun z hz => ?_, ih hys⟩
      rcases List.mem_cons.mp ((insertByUpdated_perm x ys).mem_iff.mp hz) with
        hzx | hzys
      · subst hzx; exact lexLt_asymm hlt
      · exact hy z hzys
    · simp only [hlt, if_false]
      have hlt' : lexLt x.updated_at.data y.updated_at.data = false := by
        simpa using hlt
      refine List.pairwise_cons.mpr ⟨fun z hz => ?_, h⟩
      rcases List.mem_cons.mp hz with hzy | hzys
      · subst hzy; exact hlt'
      · exact lexLt_ge_trans hlt' (hy z hzys)

/-- The sorted output is descending in `updated_at`. -/
theorem sortByUpdatedDesc_pairwise (l : List DocMeta) :
    (sortByUpdatedDesc l).Pairwise
      (fun a b => lexLt a.updated_at.data b.updated_at.data = false) := by
  induction l with
  | nil => simp [sortByUpdatedDesc]
  | cons x xs ih => exact insertByUpdated_pairwise x _ ih

/-- Filtering on a key value distinct from the inserted element's key
passes over the insertion unchanged. -/
theorem filter_insertByUpdated_ne (x : DocMeta) (l : List DocMeta)
    (v : String) (hx : x.updated_at ≠ v) :
    (insertByUpdated x l).filter (fun m => m.updated_at == v) =
      l.filter (fun m => m.updated_at == v) := by
  induction l with
  | nil => simp [insertByUpdated, hx]
  | cons y ys ih =>
    unfold insertByUpdated
    by_cases hlt : lexLt x.updated_at.data y.updated_at.data = true
    · simp only [hlt, if_true, List.filter_cons]
      rw [ih]
    · simp only [hlt, if_false, List.filter_cons]
      simp [hx, List.filter_cons]

/-- Filtering on the inserted element's own key value: the element comes
out first, because every element it was placed behind has a strictly
larger key. -/
theorem filter_insertByUpdated_eq (x : DocMeta) (l : List DocMeta)
    (v : String) (hx : x.updated_at = v) :
    (insertByUpdated x l).filter (fun m => m.updated_at == v) =
      x :: l.filter (fun m => m.updated_at == v) := by
  induction l with
  | nil => simp [insertByUpdated, hx]
  | cons y ys ih =>
    unfold insertByUpdated
    by_cases hlt : lexLt x.updated_at.data y.updated_at.data = true
    · have hy : y.updated_at ≠ v := by
        intro hyv
        have hd : x.updated_at.data = y.updated_at.data := by rw [hx, hyv]
        rw [hd, lexLt_irrefl] at hlt
        exact absurd hlt (by simp)
      simp only [hlt, if_true, List.filter_cons]
      simp only [hy, beq_iff_eq, if_false]
      rw [ih]
    · simp only [hlt, if_false, List.filter_cons]
      simp [hx, List.filter_cons]

/-- A list matches at the head of itself followed by anything. -/
theorem leadMatch_append (l s : List Char) : leadMatch l (l ++ s) = true := by
  induction l with
  | nil => rfl
  | cons a as ih => simp [leadMatch, ih]

/-- A list occurs as a substring at the head of `m ++ s`. -/
theorem hasSub_append_left (m s : List Char) : hasSub m (m ++ s) = true := by
  cases m with
  | nil =>
    cases s with
    | nil => rfl
    | cons c t => simp [hasSub, leadMatch]
  | cons a as =>
    rw [List.cons_append, hasSub]
    have h := leadMatch_append (a :: as) s
    rw [List.cons_append] at h
    simp [h]

/-- A list occurs as a substring of any surrounding concatenation. -/
theorem hasSub_append_middle (m p s : List Char) :
    hasSub m (p ++ (m ++ s)) = true := by
  induction p with
  | nil => simpa using hasSub_append_left m s
  | cons c p' ih =>
    rw [List.cons_append, hasSub]
    simp [ih]

/-- Correctness of `findSubPos`: it returns the first matching offset; the needle matches
there and at no earlier offset. -/
theorem findSubPos_spec (needle hay : List Char) (p : Nat)
    (h : findSubPos needle hay = some p) :
    leadMatch needle (hay.drop p) = true ∧
    ∀ q, q < p → leadMatch needle (hay.drop q) = false := by
  induction hay generalizing p with
  | nil =>
    rw [findSubPos] at h
    by_cases hne : needle.isEmpty = true
    · simp only [hne, if_true, Option.some.injEq] at h
      subst h
      refine ⟨?_, fun q hq => absurd hq (Nat.not_lt_zero q)⟩
      cases needle with
      | nil => rfl
      | cons a as => simp [List.isEmpty] at hne
    · simp [hne] at h
  | cons c t ih =>
    rw [findSubPos] at h
    by_cases hlm : leadMatch needle (c :: t) = true
    · simp only [hlm, if_true, Option.some.injEq] at h
      subst h
      exact ⟨hlm, fun q hq => absurd hq (Nat.not_lt_zero q)⟩
    · simp only [hlm, if_false] at h
      cases hfind : findSubPos needle t with
      | none => rw [hfind] at h; simp at h
      | some p' =>
        rw [hfind] at h
        simp at h
        subst h
        obtain ⟨h1, h2⟩ := ih p' hfind
        refine ⟨by simpa [List.drop_succ_cons] using h1, fun q hq => ?_⟩
        cases q with
        | zero =>
          simp only [List.drop_zero]
          simpa using hlm
        | succ q' =>
          simp only [List.drop_succ_cons]
          exact h2 q' (Nat.succ_lt_succ_iff.mp hq)

/-- Containment and first-occurrence search agree. -/
theorem hasSub_iff_findSubPos (needle hay : List Char) :
    hasSub needle hay = true ↔ ∃ p, findSubPos needle hay = some p := by
  induction hay with
  | nil =>
    rw [hasSub, findSubPos]
    by_cases hne : needle.isEmpty = true
    · simp [hne]
    · simp [hne]
  | cons c t ih =>
    rw [hasSub, findSubPos]
    by_cases hlm : leadMatch needle (c :: t) = true
    · simp [hlm]
    · simp only [hlm, if_false, Bool.false_or]
      rw [ih]
      cases hfind : findSubPos needle t with
      | none => simp [hfind]
      | some p' => simp [hfind]

/-- Splitting on blank lines never yields an empty list of paragraphs. -/
theorem splitPara_ne_nil (l : List Char) : splitPara l ≠ [] := by
  rcases l with _ | ⟨c, _ | ⟨d, t⟩⟩
  · simp [splitPara]
  · simp [splitPara]
  · rw [splitPara]
    by_cases h : (c == '\n' && d == '\n') = true
    · simp [h]
    · simp only [h, if_false]
      cases splitPara (d :: t) with
      | nil => simp
      | cons p ps => simp

/-- Splitting on `'.'` never yields an empty list of segments. -/
theorem splitDot_ne_nil (l : List Char) : splitDot l ≠ [] := by
  rcases l with _ | ⟨c, t⟩
  · simp [splitDot]
  · rw [splitDot]
    by_cases h : (c == '.') = true
    · simp [h]
    · simp only [h, if_false]
      cases splitDot t with
      | nil => simp
      | cons p ps => simp

/-- Unfolding one digit of the zero-padded representation. -/
theorem padNum_succ (w n : Nat) :
    padNum (w + 1) n = Nat.digitChar (n / 10 ^ w % 10) :: padNum w n := by
  unfold padNum
  rw [List.range_succ]
  simp

/-- A zero-padded field has exactly its width many characters. -/
theorem padNum_length (w n : Nat) : (padNum w n).length = w := by
  simp [padNum]

/-- A decimal digit character decodes to its value. -/
theorem digitChar_toNat (m : Nat) (h : m < 10) :
    (Nat.digitChar m).toNat - 48 = m := by
  interval_cases m <;> rfl

/-- A decimal digit character is a digit. -/
theorem digitChar_isDigit (m : Nat) (h : m < 10) :
    (Nat.digitChar m).isDigit = true := by
  interval_cases m <;> rfl

/-- Every character of a padded field is a digit. -/
theorem padNum_all_digits (w n : Nat) :
    ∀ c ∈ padNum w n, c.isDigit = true := by
  intro c hc
  unfold padNum at hc
  rcases List.mem_map.mp hc with ⟨i, _, rfl⟩
  exact digitChar_isDigit _ (Nat.mod_lt _ (by norm_num))

/-- Folding the decimal decoder over a padded field. -/
theorem readNum_padNum_aux (w : Nat) :
    ∀ (n a : Nat),
      List.foldl (fun a c => a * 10 + (c.toNat - 48)) a (padNum w n) =
        a * 10 ^ w + n % 10 ^ w := by
  induction w with
  | zero => intro n a; simp [padNum, Nat.mod_one]
  | succ w ih =>
    intro n a
    rw [padNum_succ]
    simp only [List.foldl_cons]
    rw [ih, digitChar_toNat _ (Nat.mod_lt _ (by norm_num))]
    have hsplit : n % 10 ^ (w + 1) = n % 10 ^ w + 10 ^ w * (n / 10 ^ w % 10) := by
      rw [pow_succ]
      exact Nat.mod_mul
    rw [hsplit]
    ring

/-- Decoding a padded in-range field recovers the value. -/
theorem readNum_padNum (w n : Nat) (h : n < 10 ^ w) :
    readNum (padNum w n) = n := by
  unfold readNum
  rw [readNum_padNum_aux]
  simp [Nat.mod_eq_of_lt h]

/-- A string interpolated between two others occurs in the result. -/
theorem hasSub_quoted (topic pre post : String) :
    hasSub topic.data (pre ++ topic ++ post).data = true := by
  rw [String.data_append, String.data_append, List.append_assoc]
  exact hasSub_append_middle _ _ _

/-- Stability: for every key value, the sorted list restricted to that
value is exactly the input restricted to that value, in input order. -/
theorem sortByUpdatedDesc_stable (l : List DocMeta) (v : String) :
    (sortByUpdatedDesc l).filter (fun m => m.updated_at == v) =
      l.filter (fun m => m.updated_at == v) := by
  induction l with
  | nil => rfl
  | cons x xs ih =>
    unfold sortByUpdatedDesc
    by_cases hx : x.updated_at = v
    · rw [filter_insertByUpdated_eq x _ v hx, ih, List.filter_cons]
      simp [hx]
    · rw [filter_insertByUpdated_ne x _ v hx, ih, List.filter_cons]
      simp [hx]

end Rubricy

/-- Claim C1: Save→Load round-trip: saving a request that carries `id`,
`title` and `content`, then loading the id of the returned document,
yields a document whose `id`, `title` and `content` equal the saved ones
(its timestamps are whatever ISO strings the clock produced). -/
theorem C1_save_load_roundtrip (st : ServerState) (req : SaveRequest)
    (nowId : Timestamp) (iso1 iso2 : String)
    (i t c : String)
    (hid : req.id = some i) (htitle : req.title = some t)
    (hcontent : req.content = some c) :
    ∃ doc : Document,
      (load_document (save_document st req nowId iso1 iso2).2
          (save_document st req nowId iso1 iso2).1.document.id).1 =
        { success := true, document := some doc, error := none, status := 200 } ∧
      doc.id = i ∧ doc.title = t ∧ doc.content = c := by
  refine ⟨{ id := i, title := t, content := c,
            created_at := iso1, updated_at := iso2 }, ?_, rfl, rfl, rfl⟩
  simp only [save_document, load_document, hid, htitle, hcontent, Option.getD_some]
  rw [lookupFile_setKey]

/-- Witness for C1 at a concrete request and empty starting state. -/
theorem C1_save_load_roundtrip_witness :
    ∃ doc : Document,
      (load_document
          (save_document ⟨[], []⟩ ⟨some "42", some "Body text", some "My Title"⟩
            ⟨2024, 1, 2, 3, 4, 5⟩ "2024-01-02T03:04:05" "2024-01-02T03:04:05").2
          (save_document ⟨[], []⟩ ⟨some "42", some "Body text", some "My Title"⟩
            ⟨2024, 1, 2, 3, 4, 5⟩ "2024-01-02T03:04:05" "2024-01-02T03:04:05").1.document.id).1 =
        { success := true, document := some doc, error := none, status := 200 } ∧
      doc.id = "42" ∧ doc.title = "My Title" ∧ doc.content = "Body text" :=
  C1_save_load_roundtrip ⟨[], []⟩ ⟨some "42", some "Body text", some "My Title"⟩
    ⟨2024, 1, 2, 3, 4, 5⟩ "2024-01-02T03:04:05" "2024-01-02T03:04:05"
    "42" "My Title" "Body text" rfl rfl rfl

/-- Claim C2: List ordering: the returned list is a permutation of the
metadata of the `.json` files in scan order, sorted by `updated_at`
descending under lexicographic string comparison, equal keys keeping
scan order; in particular a listed document with `updated_at`
`"2024-01-02T00:00:00"` appears strictly before one with
`"2024-01-01T00:00:00"`. -/
theorem C2_list_ordering (st : ServerState) :
    ((list_documents st).documents).Pairwise
      (fun a b => lexLt a.updated_at.data b.updated_at.data = false) ∧
    ((list_documents st).documents).Perm
      ((st.dataDir.filter (fun f => strEndsWith f.1 ".json")).map
        (fun f => metaOf f.2)) ∧
    (∀ v : String,
      ((list_documents st).documents).filter (fun m => m.updated_at == v) =
        ((st.dataDir.filter (fun f => strEndsWith f.1 ".json")).map
          (fun f => metaOf f.2)).filter (fun m => m.updated_at == v)) ∧
    (∀ i j : Fin ((list_documents st).documents).length,
      (((list_documents st).documents).get i).updated_at = "2024-01-02T00:00:00" →
      (((list_documents st).documents).get j).updated_at = "2024-01-01T00:00:00" →
      (i : Nat) < (j : Nat)) := by
  refine ⟨sortByUpdatedDesc_pairwise _, sortByUpdatedDesc_perm _,
    fun v => sortByUpdatedDesc_stable _ v, fun i j hi hj => ?_⟩
  have hpw : ((list_documents st).documents).Pairwise
      (fun a b => lexLt a.updated_at.data b.updated_at.data = false) :=
    sortByUpdatedDesc_pairwise _
  rcases Nat.lt_trichotomy (i : Nat) (j : Nat) with hlt | heq | hgt
  · exact hlt
  · exfalso
    have hij : (((list_documents st).documents).get i).updated_at =
        (((list_documents st).documents).get j).updated_at := by
      have hfin : i = j := Fin.ext heq
      rw [hfin]
    rw [hi, hj] at hij
    exact absurd hij (by decide)
  · exfalso
    have hrel := (List.pairwise_iff_get.mp hpw) j i hgt
    rw [hj, hi] at hrel
    exact absurd hrel (by decide)

/-- Witness for C2: a directory scanned as `a.json` (older) then `b.json`
(newer); the sorted listing puts `b` (index 0) before `a` (index 1). -/
theorem C2_list_ordering_witness :
    (list_documents
        ⟨[], [("a.json", ⟨"a", "A", "", "2024-01-01T00:00:00", "2024-01-01T00:00:00"⟩),
              ("b.json", ⟨"b", "B", "", "2024-01-02T00:00:00", "2024-01-02T00:00:00"⟩)]⟩).documents.length
      = 2 ∧ (0 : Nat) < 1 :=
  ⟨by decide,
   (C2_list_ordering
      ⟨[], [("a.json", ⟨"a", "A", "", "2024-01-01T00:00:00", "2024-01-01T00:00:00"⟩),
            ("b.json", ⟨"b", "B", "", "2024-01-02T00:00:00", "2024-01-02T00:00:00"⟩)]⟩).2.2.2
     ⟨0, by decide⟩ ⟨1, by decide⟩ (by decide) (by decide)⟩

/-- Claim C3: Load error contract: when `<id>.json` is absent the response is
`success := false` with error `"Document not found"` and status 404; when it
exists the response is `success := true` with the stored document; in both
cases the server state is unchanged. -/
theorem C3_load_error_contract (st : ServerState) (doc_id : String) :
    (lookupFile st.dataDir (doc_id ++ ".json") = none →
      (load_document st doc_id).1 =
        { success := false, document := none,
          error := some "Document not found", status := 404 }) ∧
    (∀ doc : Document, lookupFile st.dataDir (doc_id ++ ".json") = some doc →
      (load_document st doc_id).1 =
        { success := true, document := some doc, error := none, status := 200 }) ∧
    (load_document st doc_id).2 = st := by
  refine ⟨fun h => ?_, fun doc h => ?_, ?_⟩
  · simp [load_document, h]
  · simp [load_document, h]
  · unfold load_document
    cases lookupFile st.dataDir (doc_id ++ ".json") <;> rfl

/-- Witness for C3: a state holding only `a.json`; loading `"b"` misses,
loading `"a"` hits, and neither changes the state. -/
theorem C3_load_error_contract_witness :
    (load_document ⟨[], [("a.json", ⟨"a", "T", "C", "t1", "t2"⟩)]⟩ "b").1 =
      { success := false, document := none,
        error := some "Document not found", status := 404 } ∧
    (load_document ⟨[], [("a.json", ⟨"a", "T", "C", "t1", "t2"⟩)]⟩ "a").1 =
      { success := true, document := some ⟨"a", "T", "C", "t1", "t2"⟩,
        error := none, status := 200 } ∧
    (load_document ⟨[], [("a.json", ⟨"a", "T", "C", "t1", "t2"⟩)]⟩ "b").2 =
      ⟨[], [("a.json", ⟨"a", "T", "C", "t1", "t2"⟩)]⟩ :=
  ⟨(C3_load_error_contract ⟨[], [("a.json", ⟨"a", "T", "C", "t1", "t2"⟩)]⟩ "b").1
      (by decide),
   (C3_load_error_contract ⟨[], [("a.json", ⟨"a", "T", "C", "t1", "t2"⟩)]⟩ "a").2.1
      ⟨"a", "T", "C", "t1", "t2"⟩ (by decide),
   (C3_load_error_contract ⟨[], [("a.json", ⟨"a", "T", "C", "t1", "t2"⟩)]⟩ "b").2.2⟩

/-- Claim C4: Export error contract: `export_document` succeeds exactly when
the format is one of `"txt"`, `"html"`, `"markdown"`; any other format
value yields `success := false`, error `"Unsupported format"`, HTTP 400,
and there is no other failure path. -/
theorem C4_export_error_contract (content format_type : String) :
    ((export_document content format_type).success = true ↔
      format_type ∈ supportedFormats) ∧
    (format_type ∉ supportedFormats →
      export_document content format_type =
        { success := false, format := none, content := none,
          error := some "Unsupported format", status := 400 }) := by
  unfold export_document supportedFormats
  by_cases h1 : format_type = "txt" <;>
    by_cases h2 : format_type = "html" <;>
      by_cases h3 : format_type = "markdown" <;>
        simp [h1, h2, h3]

/-- Witness for C4 at concrete inputs `format = "bogus"` and `"txt"`. -/
theorem C4_export_error_contract_witness :
    export_document "hello" "bogus" =
      { success := false, format := none, content := none,
        error := some "Unsupported format", status := 400 } ∧
    (export_document "hello" "txt").success = true :=
  ⟨(C4_export_error_contract "hello" "bogus").2 (by decide),
   (C4_export_error_contract "hello" "txt").1.mpr (by decide)⟩

/-- Claim C5: ChatReply keyword priority: the implemented if-chain equals
lookup in the ordered rule table (case-insensitive substring match over
the groups `grammar|spell`, `style|improve`, `idea|suggest`, `hello|hi`,
`help`, first matching group wins), and the echo fallback contains the
message verbatim as a substring. -/
theorem C5_chat_keyword_priority (message context : String) :
    generate_chat_response message context = chatReplySpec message ∧
    hasSub message.data (echoTemplate message).data = true := by
  constructor
  · by_cases h1 : (hasSub "grammar".data (toLowerStr message).data
        || hasSub "spell".data (toLowerStr message).data) = true <;>
    by_cases h2 : (hasSub "style".data (toLowerStr message).data
        || hasSub "improve".data (toLowerStr message).data) = true <;>
    by_cases h3 : (hasSub "idea".data (toLowerStr message).data
        || hasSub "suggest".data (toLowerStr message).data) = true <;>
    by_cases h4 : (hasSub "hello".data (toLowerStr message).data
        || hasSub "hi".data (toLowerStr message).data) = true <;>
    by_cases h5 : hasSub "help".data (toLowerStr message).data = true <;>
    simp [generate_chat_response, chatReplySpec, firstRuleMatch, chatRules,
      h1, h2, h3, h4, h5]
  · exact hasSub_quoted message
      "I understand you're asking about '"
      "'. I'm here to help with your writing! Try asking about grammar, style, or ideas for your piece."

/-- Claim C6: GrammarCheck single rule: when the text contains two
consecutive spaces, the issues list is exactly one formatting issue whose
position is the offset of the first occurrence; otherwise it is empty;
suggestions are the fixed string, one per formatting issue; and the two
concrete examples behave as stated. -/
theorem C6_grammar_single_rule (text : String) :
    (hasSub "  ".data text.data = true →
      ∃ p : Nat,
        check_grammar_issues text =
          [{ type := "formatting", message := "Double spaces detected",
             position := (p : Int) }] ∧
        leadMatch "  ".data (text.data.drop p) = true ∧
        ∀ q, q < p → leadMatch "  ".data (text.data.drop q) = false) ∧
    (hasSub "  ".data text.data = false → check_grammar_issues text = []) ∧
    generate_grammar_suggestions (check_grammar_issues text) =
      (check_grammar_issues text).map
        (fun _ => "Remove extra spaces for better formatting.") ∧
    check_grammar_issues "a  b" =
      [{ type := "formatting", message := "Double spaces detected",
         position := 1 }] ∧
    check_grammar_issues "a b" = [] := by
  refine ⟨fun h => ?_, fun h => ?_, ?_, by decide, by decide⟩
  · obtain ⟨p, hp⟩ := (hasSub_iff_findSubPos _ _).mp h
    have hlen : 0 < text.data.length := by
      rcases hd : text.data with _ | ⟨c, t⟩
      · rw [hd] at h
        exact absurd h (by decide)
      · simp
    obtain ⟨h1, h2⟩ := findSubPos_spec _ _ p hp
    refine ⟨p, ?_, h1, h2⟩
    simp [check_grammar_issues, hlen, h, pyFind, hp]
    exact Nat.pos_iff_ne_zero.mp hlen
  · simp [check_grammar_issues, h]
  · unfold check_grammar_issues
    by_cases h1 : 0 < text.data.length
    · by_cases h2 : hasSub "  ".data text.data = true
      · simp [h1, h2, generate_grammar_suggestions]
      · simp [h1, h2, generate_grammar_suggestions]
    · rw [if_neg h1]
      rfl

/-- Witness for C6 at the claim's own examples `"a  b"` and `"a b"`. -/
theorem C6_grammar_single_rule_witness :
    (∃ p : Nat,
      check_grammar_issues "a  b" =
        [{ type := "formatting", message := "Double spaces detected",
           position := (p : Int) }] ∧
      leadMatch "  ".data ("a  b".data.drop p) = true ∧
      ∀ q, q < p → leadMatch "  ".data ("a  b".data.drop q) = false) ∧
    check_grammar_issues "a b" = [] :=
  ⟨(C6_grammar_single_rule "a  b").1 (by decide),
   (C6_grammar_single_rule "a b").2.1 (by decide)⟩

/-- Claim C7: GenerateIdeas cardinality: a non-empty topic yields exactly 3
prompts, each containing the topic; an empty topic yields exactly the
fixed list of 4 generic prompts. -/
theorem C7_generate_ideas_cardinality (context topic : String) :
    (topic ≠ "" →
      (generate_writing_ideas context topic).length = 3 ∧
      ∀ s ∈ generate_writing_ideas context topic,
        hasSub topic.data s.data = true) ∧
    (topic = "" →
      generate_writing_ideas context topic = genericIdeas ∧
      genericIdeas.length = 4) := by
  constructor
  · intro h
    constructor
    · simp [generate_writing_ideas, h]
    · intro s hs
      unfold generate_writing_ideas at hs
      rw [if_pos h] at hs
      simp only [List.mem_cons, List.not_mem_nil, or_false] at hs
      rcases hs with h1 | h2 | h3
      · subst h1; exact hasSub_quoted topic _ _
      · subst h2; exact hasSub_quoted topic _ _
      · subst h3; exact hasSub_quoted topic _ _
  · intro h
    exact ⟨by simp [generate_writing_ideas, h], rfl⟩

/-- Witness for C7 at topics `"forests"` and `""`. -/
theorem C7_generate_ideas_cardinality_witness :
    ((generate_writing_ideas "" "forests").length = 3 ∧
      ∀ s ∈ generate_writing_ideas "" "forests",
        hasSub "forests".data s.data = true) ∧
    (generate_writing_ideas "" "" = genericIdeas ∧ genericIdeas.length = 4) :=
  ⟨(C7_generate_ideas_cardinality "" "forests").1 (by decide),
   (C7_generate_ideas_cardinality "" "").2 rfl⟩

/-- Claim C8: StyleSuggestions contract: the long-sentence message appears
exactly when some `'.'`-segment exceeds 100 characters; the
long-paragraph message appears exactly when the first blank-line segment
exceeds 500 characters (later paragraphs never checked); and
`improved_text` is always the unmodified input. -/
theorem C8_style_contract (text : String) :
    (longSentenceMsg ∈ generate_style_suggestions text ↔
      ∃ s ∈ splitDot text.data, 100 < s.length) ∧
    (longParaMsg ∈ generate_style_suggestions text ↔
      500 < ((splitPara text.data).headD []).length) ∧
    apply_style_improvements text (generate_style_suggestions text) = text := by
  have hplen : 0 < (splitPara text.data).length :=
    List.length_pos.mpr (splitPara_ne_nil _)
  refine ⟨?_, ?_, rfl⟩
  · by_cases hlen : 0 < text.data.length
    · simp only [generate_style_suggestions, hlen, if_true]
      by_cases hf : ((splitDot text.data).filter
          (fun s => 100 < s.length)).isEmpty = true
      · simp only [hf, if_true, List.nil_append]
        constructor
        · intro hmem
          exfalso
          by_cases hp : 0 < (splitPara text.data).length
              ∧ 500 < ((splitPara text.data).headD []).length
          · rw [if_pos hp] at hmem
            simp only [List.mem_singleton] at hmem
            exact absurd hmem (by decide)
          · rw [if_neg hp] at hmem
            simp at hmem
        · rintro ⟨s, hs, hlong⟩
          exfalso
          have h2 := List.filter_eq_nil_iff.mp (List.isEmpty_iff.mp hf) s hs
          simp at h2
          exact absurd hlong (by simpa using h2)
      · simp only [hf, if_false]
        constructor
        · intro _
          have hne : ((splitDot text.data).filter
              (fun s => 100 < s.length)) ≠ [] := by
            intro he
            rw [he] at hf
            exact hf rfl
          obtain ⟨s, hs⟩ := List.exists_mem_of_ne_nil _ hne
          have hmem := List.mem_filter.mp hs
          exact ⟨s, hmem.1, by simpa using hmem.2⟩
        · intro _
          simp
    · have htext : text.data = [] := by
        rcases hd : text.data with _ | ⟨c, t⟩
        · rfl
        · rw [hd] at hlen
          simp at hlen
      rw [generate_style_suggestions, if_neg hlen, htext]
      simp [splitDot]
  · by_cases hlen : 0 < text.data.length
    · by_cases hp : 500 < ((splitPara text.data).headD []).length
      · have hcond : 0 < (splitPara text.data).length
            ∧ 500 < ((splitPara text.data).headD []).length := ⟨hplen, hp⟩
        simp only [generate_style_suggestions, hlen, if_true, if_pos hcond]
        constructor
        · intro _
          exact hp
        · intro _
          exact List.mem_append.mpr (Or.inr (by simp))
      · have hcond : ¬ (0 < (splitPara text.data).length
            ∧ 500 < ((splitPara text.data).headD []).length) :=
          fun hc => hp hc.2
        simp only [generate_style_suggestions, hlen, if_true, if_neg hcond,
          List.append_nil]
        constructor
        · intro hmem
          exfalso
          by_cases hf : ((splitDot text.data).filter
              (fun s => 100 < s.length)).isEmpty = true
          · rw [if_pos hf] at hmem
            simp at hmem
          · rw [if_neg hf] at hmem
            simp only [List.mem_singleton] at hmem
            exact absurd hmem (by decide)
        · intro hc
          exact absurd hc hp
    · have htext : text.data = [] := by
        rcases hd : text.data with _ | ⟨c, t⟩
        · rfl
        · rw [hd] at hlen
          simp at hlen
      rw [generate_style_suggestions, if_neg hlen, htext]
      simp [splitPara]

/-- Witness for C8: a 120-character run triggers the long-sentence
message; `apply_style_improvements` echoes the input. -/
theorem C8_style_contract_witness :
    longSentenceMsg ∈ generate_style_suggestions ⟨List.replicate 120 'a'⟩ ∧
    apply_style_improvements "x" (generate_style_suggestions "x") = "x" :=
  ⟨(C8_style_contract ⟨List.replicate 120 'a'⟩).1.mpr (by decide),
   (C8_style_contract "x").2.2⟩

/-- Claim C9: Save id generation: with the `id` field omitted, the document
id is the `%Y%m%d%H%M%S`-formatted clock reading: 14 characters, all
digits, decomposing into zero-padded year/month/day/hour/minute/second
fields that decode back to the clock's values. -/
theorem C9_save_id_generation (st : ServerState) (req : SaveRequest)
    (nowId : Timestamp) (iso1 iso2 : String) (hid : req.id = none)
    (hy : nowId.year < 10000) (hmo : nowId.month < 100)
    (hda : nowId.day < 100) (hho : nowId.hour < 100)
    (hmi : nowId.minute < 100) (hse : nowId.second < 100) :
    (save_document st req nowId iso1 iso2).1.document.id =
      formatTimestamp nowId ∧
    (formatTimestamp nowId).data.length = 14 ∧
    (∀ c ∈ (formatTimestamp nowId).data, c.isDigit = true) ∧
    readNum ((formatTimestamp nowId).data.take 4) = nowId.year ∧
    readNum (((formatTimestamp nowId).data.drop 4).take 2) = nowId.month ∧
    readNum (((formatTimestamp nowId).data.drop 6).take 2) = nowId.day ∧
    readNum (((formatTimestamp nowId).data.drop 8).take 2) = nowId.hour ∧
    readNum (((formatTimestamp nowId).data.drop 10).take 2) = nowId.minute ∧
    readNum ((formatTimestamp nowId).data.drop 12) = nowId.second := by
  have hdata : (formatTimestamp nowId).data =
      padNum 4 nowId.year ++ (padNum 2 nowId.month ++ (padNum 2 nowId.day
        ++ (padNum 2 nowId.hour ++ (padNum 2 nowId.minute
          ++ padNum 2 nowId.second)))) := by
    simp [formatTimestamp, List.append_assoc]
  have h4 : (formatTimestamp nowId).data.drop 4 =
      padNum 2 nowId.month ++ (padNum 2 nowId.day
        ++ (padNum 2 nowId.hour ++ (padNum 2 nowId.minute
          ++ padNum 2 nowId.second))) := by
    rw [hdata]
    exact List.drop_left' (padNum_length 4 _)
  have h6 : (formatTimestamp nowId).data.drop 6 =
      padNum 2 nowId.day ++ (padNum 2 nowId.hour
        ++ (padNum 2 nowId.minute ++ padNum 2 nowId.second)) := by
    have e : (formatTimestamp nowId).data.drop 6 =
        ((formatTimestamp nowId).data.drop 4).drop 2 := by
      rw [List.drop_drop]
    rw [e, h4]
    exact List.drop_left' (padNum_length 2 _)
  have h8 : (formatTimestamp nowId).data.drop 8 =
      padNum 2 nowId.hour ++ (padNum 2 nowId.minute
        ++ padNum 2 nowId.second) := by
    have e : (formatTimestamp nowId).data.drop 8 =
        ((formatTimestamp nowId).data.drop 6).drop 2 := by
      rw [List.drop_drop]
    rw [e, h6]
    exact List.drop_left' (padNum_length 2 _)
  have h10 : (formatTimestamp nowId).data.drop 10 =
      padNum 2 nowId.minute ++ padNum 2 nowId.second := by
    have e : (formatTimestamp nowId).data.drop 10 =
        ((formatTimestamp nowId).data.drop 8).drop 2 := by
      rw [List.drop_drop]
    rw [e, h8]
    exact List.drop_left' (padNum_length 2 _)
  have h12 : (formatTimestamp nowId).data.drop 12 =
      padNum 2 nowId.second := by
    have e : (formatTimestamp nowId).data.drop 12 =
        ((formatTimestamp nowId).data.drop 10).drop 2 := by
      rw [List.drop_drop]
    rw [e, h10]
    exact List.drop_left' (padNum_length 2 _)
  refine ⟨by simp [save_document, hid], ?_, ?_, ?_, ?_, ?_, ?_, ?_, ?_⟩
  · rw [hdata]
    simp [padNum_length]
  · intro c hc
    rw [hdata] at hc
    simp only [List.mem_append] at hc
    rcases hc with h | h | h | h | h | h <;>
      exact padNum_all_digits _ _ c h
  · rw [hdata, List.take_left' (padNum_length 4 _)]
    exact readNum_padNum 4 _ hy
  · rw [h4, List.take_left' (padNum_length 2 _)]
    exact readNum_padNum 2 _ hmo
  · rw [h6, List.take_left' (padNum_length 2 _)]
    exact readNum_padNum 2 _ hda
  · rw [h8, List.take_left' (padNum_length 2 _)]
    exact readNum_padNum 2 _ hho
  · rw [h10, List.take_left' (padNum_length 2 _)]
    exact readNum_padNum 2 _ hmi
  · rw [h12]
    exact readNum_padNum 2 _ hse

/-- Witness for C9 at the clock reading 2024-01-02 03:04:05. -/
theorem C9_save_id_generation_witness :
    (save_document ⟨[], []⟩ ⟨none, some "c", some "t"⟩
        ⟨2024, 1, 2, 3, 4, 5⟩ "x" "y").1.document.id =
      formatTimestamp ⟨2024, 1, 2, 3, 4, 5⟩ ∧
    (formatTimestamp ⟨2024, 1, 2, 3, 4, 5⟩).data.length = 14 ∧
    formatTimestamp ⟨2024, 1, 2, 3, 4, 5⟩ = "20240102030405" :=
  ⟨(C9_save_id_generation ⟨[], []⟩ ⟨none, some "c", some "t"⟩
      ⟨2024, 1, 2, 3, 4, 5⟩ "x" "y" rfl (by decide) (by decide) (by decide)
      (by decide) (by decide) (by decide)).1,
   (C9_save_id_generation ⟨[], []⟩ ⟨none, some "c", some "t"⟩
      ⟨2024, 1, 2, 3, 4, 5⟩ "x" "y" rfl (by decide) (by decide) (by decide)
      (by decide) (by decide) (by decide)).2.1,
   by decide⟩

/-- Claim C10: Export content transforms: format `"html"` embeds the content
verbatim (no escaping) in the fixed HTML template, while `"txt"` and
`"markdown"` return the content unchanged. -/
theorem C10_export_content_verbatim (content : String) :
    (export_document content "txt").content = some content ∧
    (export_document content "markdown").content = some content ∧
    (export_document content "html").content =
      some ("<html><head><title>Exported Document</title></head><body><pre>"
        ++ content ++ "</pre></body></html>") := by
  refine ⟨rfl, ?_, rfl⟩
  unfold export_document
  simp
